import Mathlib

/-!
Verification of the mnsphone-server room/game coordinator.

The source is a Socket.IO server (`src/socket.ts` handlers over the room
store of `src/models.ts`).  We embed the room store as a list of rooms in
Map-insertion order (JS `Map` iterates keys in insertion order), and each
socket event handler as a pure function from the store and the event to
the new store plus the list of outbound emissions.  Random room codes and
uuids are supplied as parameters of the `create-room` event.  Transport
concerns (socket group join/leave) are not part of the room state and are
not modelled; emissions record their target audience instead.
-/

namespace Mnsphone

inductive GameState where
  | lobby
  | writing
  | drawing
  | results
deriving DecidableEq, Repr

structure GamePlayer where
  id : String
  nickname : String
  profilePic : String
  isHost : Bool
  isReady : Bool
deriving DecidableEq, Repr

structure Sentence where
  playerId : String
  text : String
  round : Nat
deriving DecidableEq, Repr

structure Drawing where
  playerId : String
  imageData : String
  round : Nat
deriving DecidableEq, Repr

structure PresentationMode where
  active : Bool
  currentIndex : Int
deriving DecidableEq, Repr

structure GameRoom where
  id : String
  code : String
  players : List GamePlayer
  gameState : GameState
  currentRound : Nat
  maxRounds : Nat
  locked : Bool
  sentences : List Sentence
  drawings : List Drawing
  presentationMode : PresentationMode
deriving DecidableEq, Repr

/-- The room store: `rooms : Map<string, GameRoom>` in insertion order. -/
abbrev Store := List GameRoom

/-- Projection sent in `active-rooms` emissions. -/
structure RoomSummary where
  code : String
  playerCount : Nat
  locked : Bool
deriving DecidableEq, Repr

/-- Outbound events, tagged with their audience. -/
inductive Emission where
  | error (target : String) (message : String)
  | roomCreated (target : String) (room : GameRoom)
  | roomJoined (target : String) (room : GameRoom)
  | playerJoined (roomId : String) (playerId : String) (nickname : String) (profilePic : String)
  | playerLeft (roomId : String) (playerId : String) (updatedRoom : GameRoom)
  | roomUpdated (roomId : String) (room : GameRoom)
  | gameStarted (roomId : String) (room : GameRoom)
  | phaseChanged (roomId : String) (phase : GameState)
  | playerKicked (target : String)
  | roomLockChanged (roomId : String) (roomCode : String) (locked : Bool)
  | presentationStarted (roomId : String) (mode : PresentationMode)
  | resultChanged (roomId : String) (mode : PresentationMode)
  | presentationEnded (roomId : String)
  | gameReset (roomId : String)
  | activeRooms (target : Option String) (rooms : List RoomSummary)
deriving DecidableEq, Repr

/-- Inbound events.  `sid` is the caller's connection id (`socket.id`);
`create-room` additionally carries the generated uuid and room code. -/
inductive Event where
  | createRoom (sid nickname profilePic roomId roomCode : String)
  | joinRoom (sid roomCode nickname profilePic : String)
  | leaveRoom (sid : String)
  | toggleReady (sid : String)
  | startGame (sid : String)
  | submitSentence (sid text : String)
  | submitDrawing (sid imageData : String)
  | updateRoomSettings (sid : String) (maxRounds : Option Nat)
  | kickPlayer (sid playerId : String)
  | toggleRoomLock (sid : String)
  | startPresentation (sid : String)
  | showResult (sid : String) (index : Int)
  | endPresentation (sid : String)
  | resetGame (sid : String)
  | getActiveRooms (sid : String)
  | disconnect (sid : String)
deriving DecidableEq, Repr

/-! ### List helpers mirroring the JS idioms -/

/-- `findIndex` + `splice(idx, 1)`: remove the first element satisfying `q`
(no change when none does, as `splice` is skipped when `findIndex` is -1). -/
def eraseFirstBy (q : α → Bool) : List α → List α
  | [] => []
  | x :: xs => if q x then xs else x :: eraseFirstBy q xs

/-- In-place mutation of the object returned by `Array.prototype.find`:
apply `f` to the first element satisfying `q`. -/
def modifyFirstBy (q : α → Bool) (f : α → α) : List α → List α
  | [] => []
  | x :: xs => if q x then f x :: xs else x :: modifyFirstBy q f xs

/-- `Map.set`: replace the value when the key is present (keeping its
position), append otherwise. -/
def setRoom : Store → GameRoom → Store
  | [], r => [r]
  | x :: xs, r => if x.id == r.id then r :: xs else x :: setRoom xs r

/-- `findRoomByCode`, returning the position of the room as well. -/
def findRoomByCode (code : String) : Store → Option (Nat × GameRoom)
  | [] => none
  | r :: rs =>
    if r.code == code then some (0, r)
    else match findRoomByCode code rs with
      | some (i, r') => some (i + 1, r')
      | none => none

/-- `findPlayerRoom`: the first room (in insertion order) containing a
player with the given id, with that room's position and the player entry. -/
def findPlayerRoom (sid : String) : Store → Option (Nat × GameRoom × GamePlayer)
  | [] => none
  | r :: rs =>
    match r.players.find? (fun p => p.id == sid) with
    | some p => some (0, r, p)
    | none =>
      match findPlayerRoom sid rs with
      | some (i, r', p') => some (i + 1, r', p')
      | none => none

/-- `getActiveRooms`: lobby rooms projected for discovery. -/
def getActiveRoomsList (s : Store) : List RoomSummary :=
  (s.filter (fun r => r.gameState == GameState.lobby)).map
    (fun r => ⟨r.code, r.players.length, r.locked⟩)

/-- `emitActiveRoomsToAll(io)` on a given store. -/
def broadcastRooms (s : Store) : Emission :=
  Emission.activeRooms none (getActiveRoomsList s)

/-- Write back the handler's result at the position of the affected room:
`some r'` models in-place mutation of the room object, `none` models
`rooms.delete(room.id)`. -/
def applyAt (s : Store) (i : Nat) : Option GameRoom → Store
  | some r' => s.set i r'
  | none => s.eraseIdx i

/-- Result of a handler body once the caller's room and player entry are in
hand: an early-return `error` emission leaving all state unchanged, or a
normal completion with the updated room (`none` = room deleted), its
emissions, and whether the handler ends with `emitActiveRoomsToAll`. -/
inductive CoreResult where
  | err (msg : String)
  | ok (room? : Option GameRoom) (ems : List Emission) (broadcast : Bool)

/-- The shared prologue `const { room, player } = findPlayerRoom(socket.id);
if (!room || !player) return;` followed by the handler body `core`. -/
def handlePlayerEvent (s : Store) (sid : String)
    (core : GameRoom → GamePlayer → CoreResult) : Store × List Emission :=
  match findPlayerRoom sid s with
  | none => (s, [])
  | some (i, room, player) =>
    match core room player with
    | CoreResult.err msg => (s, [Emission.error sid msg])
    | CoreResult.ok room? ems bc =>
      let s' := applyAt s i room?
      (s', ems ++ (if bc then [broadcastRooms s'] else []))

/-! ### Error message strings -/

def msgRoomNotFound : String := "Room not found"
def msgRoomLocked : String := "Room is locked"
def msgGameStarted : String := "Game has already started"
def msgOnlyHostStart : String := "Only the host can start the game"
def msgNotAllReady : String := "Not all players are ready"
def msgNeedTwoPlayers : String := "Need at least 2 players to start"
def msgBadSentenceState : String := "Cannot submit sentence in current game state"
def msgBadDrawingState : String := "Cannot submit drawing in current game state"
def msgOnlyHostSettings : String := "Only the host can update room settings"
def msgOnlyHostKick : String := "Only the host can kick players"
def msgPlayerNotFound : String := "Player not found"
def msgKickSelf : String := "Cannot kick yourself"
def msgOnlyHostLock : String := "Only the host can lock/unlock the room"
def msgOnlyHostPresent : String := "Only the host can start presentation mode"
def msgPresentOnlyResults : String := "Presentation mode only available in results phase"
def msgOnlyHostControl : String := "Only the host can control the presentation"
def msgPresentNotActive : String := "Presentation mode not active"
def msgOnlyHostEndPresent : String := "Only the host can end presentation mode"
def msgOnlyHostReset : String := "Only the host can reset the game"

/-! ### Event handlers (one per `socket.on` registration) -/

/-- `create-room`: build the fresh room (phase lobby, maxRounds 3, caller
sole player and host), `rooms.set(roomId, room)`, emit `room-created` to
the caller and the active-rooms broadcast. -/
def applyCreateRoom (s : Store) (sid nickname profilePic roomId roomCode : String) :
    Store × List Emission :=
  let room : GameRoom :=
    { id := roomId
      code := roomCode
      players := [{ id := sid, nickname := nickname, profilePic := profilePic,
                    isHost := true, isReady := false }]
      gameState := GameState.lobby
      currentRound := 0
      maxRounds := 3
      locked := false
      sentences := []
      drawings := []
      presentationMode := { active := false, currentIndex := 0 } }
  let s' := setRoom s room
  (s', [Emission.roomCreated sid room, broadcastRooms s'])

/-- `join-room`: look the room up by code; reject when absent, locked, or
not in the lobby; otherwise push a non-host, non-ready player. -/
def applyJoinRoom (s : Store) (sid roomCode nickname profilePic : String) :
    Store × List Emission :=
  match findRoomByCode roomCode s with
  | none => (s, [Emission.error sid msgRoomNotFound])
  | some (i, room) =>
    if room.locked then (s, [Emission.error sid msgRoomLocked])
    else if room.gameState ≠ GameState.lobby then (s, [Emission.error sid msgGameStarted])
    else
      let newcomer : GamePlayer :=
        { id := sid, nickname := nickname, profilePic := profilePic,
          isHost := false, isReady := false }
      let room' := { room with players := room.players ++ [newcomer] }
      let s' := s.set i room'
      (s', [Emission.roomJoined sid room',
            Emission.playerJoined room.id sid nickname profilePic,
            broadcastRooms s'])

/-- Body shared verbatim by the `leave-room` and `disconnect` handlers:
splice the caller out; delete the room when now empty, otherwise promote
`players[0]` when the leaver was host and notify the room. -/
def leaveCore (sid : String) (room : GameRoom) (player : GamePlayer) : CoreResult :=
  let players₁ := eraseFirstBy (fun p => p.id == sid) room.players
  if players₁.isEmpty then
    CoreResult.ok none [] true
  else
    let players₂ :=
      if player.isHost && decide (0 < players₁.length) then
        match players₁ with
        | [] => []
        | h :: t => { h with isHost := true } :: t
      else players₁
    let room' := { room with players := players₂ }
    CoreResult.ok (some room') [Emission.playerLeft room.id sid room'] true

/-- `toggle-ready`: flip the caller's `isReady` (mutating the entry found
by `findPlayerRoom`). -/
def toggleReadyCore (sid : String) (room : GameRoom) (_player : GamePlayer) : CoreResult :=
  let room' := { room with
    players := modifyFirstBy (fun p => p.id == sid)
      (fun p => { p with isReady := !p.isReady }) room.players }
  CoreResult.ok (some room') [Emission.roomUpdated room.id room'] false

/-- `start-game`: host only; every player must be ready or be the caller;
at least 2 players; then phase becomes writing and currentRound 1. -/
def startGameCore (room : GameRoom) (player : GamePlayer) : CoreResult :=
  if !player.isHost then CoreResult.err msgOnlyHostStart
  else
    let allReady := room.players.all (fun p => p.isReady || p.id == player.id)
    if !allReady then CoreResult.err msgNotAllReady
    else if room.players.length < 2 then CoreResult.err msgNeedTwoPlayers
    else
      let room' := { room with gameState := GameState.writing, currentRound := 1 }
      CoreResult.ok (some room') [Emission.gameStarted room.id room'] true

/-- `submit-sentence`: writing phase only; push the sentence tagged with
the current round; when the count for the round equals the player count,
move to the drawing phase. -/
def submitSentenceCore (sid text : String) (room : GameRoom) (_player : GamePlayer) :
    CoreResult :=
  if room.gameState ≠ GameState.writing then CoreResult.err msgBadSentenceState
  else
    let room₁ : GameRoom := { room with
      sentences := room.sentences ++ [⟨sid, text, room.currentRound⟩] }
    let submittedCount : Nat :=
      (room₁.sentences.filter (fun x => x.round == room₁.currentRound)).length
    if submittedCount = room₁.players.length then
      let room₂ := { room₁ with gameState := GameState.drawing }
      CoreResult.ok (some room₂)
        [Emission.phaseChanged room.id GameState.drawing,
         Emission.roomUpdated room.id room₂] false
    else
      CoreResult.ok (some room₁) [Emission.roomUpdated room.id room₁] false

/-- `submit-drawing`: drawing phase only; push the drawing tagged with the
current round; when the count for the round equals the player count, go to
results if `currentRound >= maxRounds`, else next round in writing. -/
def submitDrawingCore (sid imageData : String) (room : GameRoom) (_player : GamePlayer) :
    CoreResult :=
  if room.gameState ≠ GameState.drawing then CoreResult.err msgBadDrawingState
  else
    let room₁ : GameRoom := { room with
      drawings := room.drawings ++ [⟨sid, imageData, room.currentRound⟩] }
    let submittedCount : Nat :=
      (room₁.drawings.filter (fun x => x.round == room₁.currentRound)).length
    if submittedCount = room₁.players.length then
      if room₁.maxRounds ≤ room₁.currentRound then
        let room₂ := { room₁ with gameState := GameState.results }
        CoreResult.ok (some room₂)
          [Emission.phaseChanged room.id GameState.results,
           Emission.roomUpdated room.id room₂] false
      else
        let room₂ := { room₁ with
          currentRound := room₁.currentRound + 1, gameState := GameState.writing }
        CoreResult.ok (some room₂)
          [Emission.phaseChanged room.id GameState.writing,
           Emission.roomUpdated room.id room₂] false
    else
      CoreResult.ok (some room₁) [Emission.roomUpdated room.id room₁] false

/-- `update-room-settings`: host only; `if (settings.maxRounds)` is a JS
truthiness test, so an absent or zero value leaves `maxRounds` unchanged. -/
def updateRoomSettingsCore (maxRounds? : Option Nat) (room : GameRoom)
    (player : GamePlayer) : CoreResult :=
  if !player.isHost then CoreResult.err msgOnlyHostSettings
  else
    let room' :=
      match maxRounds? with
      | some v => if v = 0 then room else { room with maxRounds := v }
      | none => room
    CoreResult.ok (some room') [Emission.roomUpdated room.id room'] false

/-- `kick-player`: host only; target must exist and differ from the
caller; splice the target out, notify it, broadcast the updated room. -/
def kickPlayerCore (sid targetId : String) (room : GameRoom) (player : GamePlayer) :
    CoreResult :=
  if !player.isHost then CoreResult.err msgOnlyHostKick
  else
    match room.players.find? (fun p => p.id == targetId) with
    | none => CoreResult.err msgPlayerNotFound
    | some _ =>
      if targetId = sid then CoreResult.err msgKickSelf
      else
        let room' := { room with
          players := eraseFirstBy (fun p => p.id == targetId) room.players }
        CoreResult.ok (some room')
          [Emission.playerKicked targetId, Emission.roomUpdated room.id room'] true

/-- `toggle-room-lock`: host only; flip `locked`. -/
def toggleRoomLockCore (room : GameRoom) (player : GamePlayer) : CoreResult :=
  if !player.isHost then CoreResult.err msgOnlyHostLock
  else
    let room' := { room with locked := !room.locked }
    CoreResult.ok (some room')
      [Emission.roomLockChanged room.id room.code room'.locked,
       Emission.roomUpdated room.id room'] true

/-- `start-presentation`: host only, results phase only. -/
def startPresentationCore (room : GameRoom) (player : GamePlayer) : CoreResult :=
  if !player.isHost then CoreResult.err msgOnlyHostPresent
  else if room.gameState ≠ GameState.results then CoreResult.err msgPresentOnlyResults
  else
    let room' := { room with
      presentationMode := { active := true, currentIndex := 0 } }
    CoreResult.ok (some room')
      [Emission.presentationStarted room.id room'.presentationMode] false

/-- `show-result`: host only, presentation must be active; set the index
(no bounds validation). -/
def showResultCore (index : Int) (room : GameRoom) (player : GamePlayer) : CoreResult :=
  if !player.isHost then CoreResult.err msgOnlyHostControl
  else if !room.presentationMode.active then CoreResult.err msgPresentNotActive
  else
    let room' := { room with
      presentationMode := { room.presentationMode with currentIndex := index } }
    CoreResult.ok (some room')
      [Emission.resultChanged room.id room'.presentationMode] false

/-- `end-presentation`: host only, presentation must be active; reset it. -/
def endPresentationCore (room : GameRoom) (player : GamePlayer) : CoreResult :=
  if !player.isHost then CoreResult.err msgOnlyHostEndPresent
  else if !room.presentationMode.active then CoreResult.err msgPresentNotActive
  else
    let room' := { room with
      presentationMode := { active := false, currentIndex := 0 } }
    CoreResult.ok (some room') [Emission.presentationEnded room.id] false

/-- `reset-game`: host only; back to the lobby with everything cleared and
all ready flags dropped. -/
def resetGameCore (room : GameRoom) (player : GamePlayer) : CoreResult :=
  if !player.isHost then CoreResult.err msgOnlyHostReset
  else
    let room' := { room with
      gameState := GameState.lobby
      currentRound := 0
      sentences := []
      drawings := []
      presentationMode := { active := false, currentIndex := 0 }
      players := room.players.map (fun p => { p with isReady := false }) }
    CoreResult.ok (some room')
      [Emission.gameReset room.id, Emission.roomUpdated room.id room'] true

/-- One inbound event processed to completion (the handlers run atomically
on the single-threaded event loop).  The `disconnect` handler's body is
identical to `leave-room`'s, so both dispatch to `leaveCore`. -/
def applyEvent (s : Store) : Event → Store × List Emission
  | Event.createRoom sid n pp rid rc => applyCreateRoom s sid n pp rid rc
  | Event.joinRoom sid rc n pp => applyJoinRoom s sid rc n pp
  | Event.leaveRoom sid => handlePlayerEvent s sid (leaveCore sid)
  | Event.toggleReady sid => handlePlayerEvent s sid (toggleReadyCore sid)
  | Event.startGame sid => handlePlayerEvent s sid startGameCore
  | Event.submitSentence sid text => handlePlayerEvent s sid (submitSentenceCore sid text)
  | Event.submitDrawing sid img => handlePlayerEvent s sid (submitDrawingCore sid img)
  | Event.updateRoomSettings sid mr => handlePlayerEvent s sid (updateRoomSettingsCore mr)
  | Event.kickPlayer sid tid => handlePlayerEvent s sid (kickPlayerCore sid tid)
  | Event.toggleRoomLock sid => handlePlayerEvent s sid toggleRoomLockCore
  | Event.startPresentation sid => handlePlayerEvent s sid startPresentationCore
  | Event.showResult sid idx => handlePlayerEvent s sid (showResultCore idx)
  | Event.endPresentation sid => handlePlayerEvent s sid endPresentationCore
  | Event.resetGame sid => handlePlayerEvent s sid resetGameCore
  | Event.getActiveRooms sid => (s, [Emission.activeRooms (some sid) (getActiveRoomsList s)])
  | Event.disconnect sid => handlePlayerEvent s sid (leaveCore sid)

/-- Run a sequence of events from the empty store (server start). -/
def runEvents (es : List Event) : Store :=
  es.foldl (fun s e => (applyEvent s e).1) []

/-- States reachable from server start by any event sequence. -/
inductive Reachable : Store → Prop where
  | init : Reachable []
  | step {s : Store} (e : Event) : Reachable s → Reachable (applyEvent s e).1

theorem reachable_runEvents (es : List Event) : Reachable (runEvents es) := by
  suffices h : ∀ s, Reachable s → Reachable (es.foldl (fun s e => (applyEvent s e).1) s) by
    exact h [] Reachable.init
  induction es with
  | nil => intro s hs; exact hs
  | cons e es ih => intro s hs; exact ih _ (Reachable.step e hs)

/-! ### Lemmas about the list helpers -/

theorem find?_decomp {q : α → Bool} {l : List α} {a : α} (h : l.find? q = some a) :
    ∃ l₁ l₂, l = l₁ ++ a :: l₂ ∧ (∀ x ∈ l₁, q x = false) ∧ q a = true ∧
      eraseFirstBy q l = l₁ ++ l₂ := by
  induction l with
  | nil => simp at h
  | cons x xs ih =>
    by_cases hx : q x
    · rw [List.find?_cons_of_pos _ hx] at h
      obtain rfl : x = a := by injection h
      exact ⟨[], xs, by simp, by simp, hx, by simp [eraseFirstBy, hx]⟩
    · rw [List.find?_cons_of_neg _ (by simpa using hx)] at h
      obtain ⟨l₁, l₂, hl, hl₁, hqa, herase⟩ := ih h
      refine ⟨x :: l₁, l₂, by simp [hl], ?_, hqa, ?_⟩
      · intro y hy
        rcases List.mem_cons.mp hy with rfl | hy
        · simpa using hx
        · exact hl₁ y hy
      · simp [eraseFirstBy, hx, herase]

theorem countP_modifyFirstBy {q : α → Bool} {f : α → α} {p : α → Bool}
    (hf : ∀ x, p (f x) = p x) (l : List α) :
    (modifyFirstBy q f l).countP p = l.countP p := by
  induction l with
  | nil => rfl
  | cons x xs ih =>
    by_cases hx : q x
    · simp [modifyFirstBy, hx, List.countP_cons, hf]
    · simp [modifyFirstBy, hx, List.countP_cons, ih]

theorem length_modifyFirstBy {q : α → Bool} {f : α → α} (l : List α) :
    (modifyFirstBy q f l).length = l.length := by
  induction l with
  | nil => rfl
  | cons x xs ih =>
    by_cases hx : q x
    · simp [modifyFirstBy, hx]
    · simp [modifyFirstBy, hx, ih]

theorem two_le_countP {p : α → Bool} {l : List α} {a b : α}
    (ha : a ∈ l) (hb : b ∈ l) (hne : a ≠ b) (hpa : p a = true) (hpb : p b = true) :
    2 ≤ l.countP p := by
  obtain ⟨l₁, l₂, rfl⟩ := List.append_of_mem ha
  have hb' : b ∈ l₁ ∨ b ∈ l₂ := by
    rcases List.mem_append.mp hb with h | h
    · exact Or.inl h
    · rcases List.mem_cons.mp h with rfl | h
      · exact absurd rfl hne
      · exact Or.inr h
  have hsplit := List.countP_append p l₁ (a :: l₂)
  have hcons : (a :: l₂).countP p = l₂.countP p + 1 := by
    simp [List.countP_cons, hpa]
  rcases hb' with h | h
  · have h1 : 0 < l₁.countP p := List.countP_pos_iff.mpr ⟨b, h, hpb⟩
    omega
  · have h1 : 0 < l₂.countP p := List.countP_pos_iff.mpr ⟨b, h, hpb⟩
    omega

theorem findPlayerRoom_spec {sid : String} {s : Store} {i : Nat} {room : GameRoom}
    {player : GamePlayer} (h : findPlayerRoom sid s = some (i, room, player)) :
    s.get? i = some room ∧ room.players.find? (fun p => p.id == sid) = some player := by
  induction s generalizing i with
  | nil => simp [findPlayerRoom] at h
  | cons r rs ih =>
    unfold findPlayerRoom at h
    cases hf : r.players.find? (fun p => p.id == sid) with
    | some p =>
      rw [hf] at h
      simp only [Option.some.injEq, Prod.mk.injEq] at h
      obtain ⟨rfl, rfl, rfl⟩ := h
      exact ⟨rfl, hf⟩
    | none =>
      rw [hf] at h
      cases hrec : findPlayerRoom sid rs with
      | none => rw [hrec] at h; exact absurd h (by simp)
      | some t =>
        obtain ⟨j, r', p'⟩ := t
        rw [hrec] at h
        simp only [Option.some.injEq, Prod.mk.injEq] at h
        obtain ⟨rfl, rfl, rfl⟩ := h
        obtain ⟨hget, hfind⟩ := ih hrec
        exact ⟨by simpa using hget, hfind⟩

theorem findRoomByCode_spec {code : String} {s : Store} {i : Nat} {room : GameRoom}
    (h : findRoomByCode code s = some (i, room)) :
    s.get? i = some room ∧ room.code = code := by
  induction s generalizing i with
  | nil => simp [findRoomByCode] at h
  | cons r rs ih =>
    unfold findRoomByCode at h
    by_cases hc : r.code == code
    · rw [if_pos hc] at h
      simp only [Option.some.injEq, Prod.mk.injEq] at h
      obtain ⟨rfl, rfl⟩ := h
      exact ⟨rfl, beq_iff_eq.mp hc⟩
    · rw [if_neg hc] at h
      cases hrec : findRoomByCode code rs with
      | none => rw [hrec] at h; exact absurd h (by simp)
      | some t =>
        obtain ⟨j, r'⟩ := t
        rw [hrec] at h
        simp only [Option.some.injEq, Prod.mk.injEq] at h
        obtain ⟨rfl, rfl⟩ := h
        obtain ⟨hget, hcode⟩ := ih hrec
        exact ⟨by simpa using hget, hcode⟩

/-! ### The room invariants: non-empty player list, exactly one host -/

/-- Number of entries flagged as host. -/
def hostCount (ps : List GamePlayer) : Nat := ps.countP (fun p => p.isHost)

/-- The per-room invariant claimed by the spec: the player list is
non-empty and carries exactly one host entry. -/
def RoomInv (r : GameRoom) : Prop := r.players ≠ [] ∧ hostCount r.players = 1

/-- Every room of the store satisfies `RoomInv`. -/
def StoreInv (s : Store) : Prop := ∀ r ∈ s, RoomInv r

theorem storeInv_set {s : Store} {r : GameRoom} {i : Nat}
    (hs : StoreInv s) (hr : RoomInv r) : StoreInv (s.set i r) := by
  intro x hx
  rcases List.mem_or_eq_of_mem_set hx with h | rfl
  · exact hs x h
  · exact hr

theorem storeInv_eraseIdx {s : Store} {i : Nat} (hs : StoreInv s) :
    StoreInv (s.eraseIdx i) :=
  fun x hx => hs x (List.mem_of_mem_eraseIdx hx)

theorem storeInv_setRoom {r : GameRoom} (hr : RoomInv r) :
    ∀ {s : Store}, StoreInv s → StoreInv (setRoom s r) := by
  intro s
  induction s with
  | nil =>
    intro _ x hx
    simp only [setRoom, List.mem_singleton] at hx
    subst hx; exact hr
  | cons y ys ih =>
    intro hs x hx
    unfold setRoom at hx
    by_cases hy : y.id == r.id
    · rw [if_pos hy] at hx
      rcases List.mem_cons.mp hx with rfl | hx
      · exact hr
      · exact hs x (List.mem_cons_of_mem _ hx)
    · rw [if_neg hy] at hx
      rcases List.mem_cons.mp hx with rfl | hx
      · exact hs x (List.mem_cons_self _ _)
      · exact ih (fun z hz => hs z (List.mem_cons_of_mem _ hz)) x hx

theorem leaveCore_roomInv {sid : String} {room : GameRoom} {player : GamePlayer}
    {r' : GameRoom} {ems : List Emission} {bc : Bool}
    (hfind : room.players.find? (fun p => p.id == sid) = some player)
    (hinv : RoomInv room)
    (hok : leaveCore sid room player = CoreResult.ok (some r') ems bc) :
    RoomInv r' := by
  obtain ⟨l₁, l₂, hsplit, _, _, herase⟩ := find?_decomp hfind
  have hcount : l₁.countP (fun p => p.isHost) +
      ((if player.isHost then 1 else 0) + l₂.countP (fun p => p.isHost)) = 1 := by
    have := hinv.2
    rw [hostCount, hsplit, List.countP_append, List.countP_cons] at this
    omega
  simp only [leaveCore, herase] at hok
  split at hok
  · exact absurd hok (by simp)
  · next hne =>
    have hne' : l₁ ++ l₂ ≠ [] := by
      intro hcontra; rw [hcontra] at hne; simp at hne
    by_cases hhost : player.isHost
    · have hzero : (l₁ ++ l₂).countP (fun p => p.isHost) = 0 := by
        rw [List.countP_append]; rw [if_pos hhost] at hcount; omega
      cases hll : l₁ ++ l₂ with
      | nil => exact absurd hll hne'
      | cons h t =>
        rw [hll] at hzero
        rw [List.countP_cons] at hzero
        have hh : h.isHost = false := by
          by_contra hcontra
          rw [if_pos (by simpa using hcontra)] at hzero
          omega
        have ht : t.countP (fun p => p.isHost) = 0 := by omega
        simp only [hhost, hll, decide_eq_true_eq, Bool.true_and] at hok
        rw [if_pos (by simp)] at hok
        cases hok
        refine ⟨by simp, ?_⟩
        rw [hostCount, List.countP_cons]
        simp [ht]
    · simp only [Bool.false_and, if_neg, hhost] at hok
      rw [if_neg (by simp [hhost])] at hok
      cases hok
      refine ⟨hne', ?_⟩
      rw [hostCount, List.countP_append]
      rw [if_neg hhost] at hcount
      omega

theorem kickCore_roomInv {sid tid : String} {room : GameRoom} {player : GamePlayer}
    {r' : GameRoom} {ems : List Emission} {bc : Bool}
    (hfind : room.players.find? (fun p => p.id == sid) = some player)
    (hinv : RoomInv room)
    (hok : kickPlayerCore sid tid room player = CoreResult.ok (some r') ems bc) :
    RoomInv r' := by
  have hhost' : player.isHost = true := by
    by_contra hc
    rw [Bool.not_eq_true] at hc
    simp [kickPlayerCore, hc] at hok
  cases hft : room.players.find? (fun p => p.id == tid) with
  | none => simp [kickPlayerCore, hhost', hft] at hok
  | some tgt =>
    by_cases hts : tid = sid
    · simp [kickPlayerCore, hhost', hft, hts, hfind] at hok
    · simp only [kickPlayerCore, hhost', hft, Bool.not_true, Bool.false_eq_true,
        if_false, if_neg hts, CoreResult.ok.injEq, Option.some.injEq] at hok
      obtain ⟨hr', _, _⟩ := hok
      subst hr'
      obtain ⟨m₁, m₂, hsplit, _, htid, herase⟩ := find?_decomp hft
      have hpid : player.id = sid := by
        have h := List.find?_some hfind
        simpa using h
      have htgtid : tgt.id = tid := by simpa using htid
      have hpm : player ∈ room.players := List.mem_of_find?_eq_some hfind
      have hne : player ≠ tgt := by
        intro hcontra
        apply hts
        rw [← htgtid, ← hcontra, hpid]
      have htgt : tgt.isHost = false := by
        by_contra hcontra
        have h2 : 2 ≤ room.players.countP (fun p => p.isHost) :=
          two_le_countP hpm (hsplit ▸ List.mem_append_right m₁ (List.mem_cons_self _ _))
            hne hhost' (by simpa using hcontra)
        have := hinv.2
        rw [hostCount] at this
        omega
      have hcount : room.players.countP (fun p => p.isHost) =
          m₁.countP (fun p => p.isHost) + m₂.countP (fun p => p.isHost) := by
        rw [hsplit, List.countP_append, List.countP_cons, htgt]
        simp
      have hpmem : player ∈ m₁ ++ m₂ := by
        rw [hsplit] at hpm
        rcases List.mem_append.mp hpm with h | h
        · exact List.mem_append_left _ h
        · rcases List.mem_cons.mp h with h | h
          · exact absurd h hne
          · exact List.mem_append_right _ h
      refine ⟨?_, ?_⟩
      · simp only [herase]
        exact List.ne_nil_of_mem hpmem
      · simp only [herase, hostCount, List.countP_append]
        have := hinv.2
        rw [hostCount, hcount] at this
        omega

theorem roomInv_of_players_eq {room r' : GameRoom} (hinv : RoomInv room)
    (h : r'.players = room.players) : RoomInv r' := by
  rw [RoomInv, h]; exact hinv

theorem toggleReadyCore_roomInv {sid : String} {room : GameRoom} {player : GamePlayer}
    {r' : GameRoom} {ems : List Emission} {bc : Bool} (hinv : RoomInv room)
    (hok : toggleReadyCore sid room player = CoreResult.ok (some r') ems bc) :
    RoomInv r' := by
  simp only [toggleReadyCore, CoreResult.ok.injEq, Option.some.injEq] at hok
  obtain ⟨hr', -, -⟩ := hok
  subst hr'
  refine ⟨fun hcontra => ?_, ?_⟩
  · apply hinv.1
    apply List.eq_nil_of_length_eq_zero
    have hl := length_modifyFirstBy (q := fun p => p.id == sid)
      (f := fun p => { p with isReady := !p.isReady }) room.players
    have h0 : (modifyFirstBy (fun p => p.id == sid)
        (fun p => { p with isReady := !p.isReady }) room.players).length = 0 := by
      rw [show modifyFirstBy (fun p => p.id == sid)
        (fun p => { p with isReady := !p.isReady }) room.players = ([] : List GamePlayer)
        from hcontra]
      rfl
    omega
  · show hostCount (modifyFirstBy (fun p => p.id == sid)
      (fun p => { p with isReady := !p.isReady }) room.players) = 1
    rw [hostCount, countP_modifyFirstBy (q := fun p : GamePlayer => p.id == sid)
      (f := fun p : GamePlayer => { p with isReady := !p.isReady })
      (p := fun p : GamePlayer => p.isHost) (fun x => rfl)]
    exact hinv.2

theorem startGameCore_players {room : GameRoom} {player : GamePlayer}
    {r' : GameRoom} {ems : List Emission} {bc : Bool}
    (hok : startGameCore room player = CoreResult.ok (some r') ems bc) :
    r'.players = room.players := by
  simp only [startGameCore] at hok
  split at hok
  · exact absurd hok (by simp)
  · split at hok
    · exact absurd hok (by simp)
    · split at hok
      · exact absurd hok (by simp)
      · cases hok; rfl

theorem submitSentenceCore_players {sid text : String} {room : GameRoom}
    {player : GamePlayer} {r' : GameRoom} {ems : List Emission} {bc : Bool}
    (hok : submitSentenceCore sid text room player = CoreResult.ok (some r') ems bc) :
    r'.players = room.players := by
  simp only [submitSentenceCore] at hok
  split at hok
  · exact absurd hok (by simp)
  · split at hok
    · cases hok; rfl
    · cases hok; rfl

theorem submitDrawingCore_players {sid imageData : String} {room : GameRoom}
    {player : GamePlayer} {r' : GameRoom} {ems : List Emission} {bc : Bool}
    (hok : submitDrawingCore sid imageData room player = CoreResult.ok (some r') ems bc) :
    r'.players = room.players := by
  simp only [submitDrawingCore] at hok
  split at hok
  · exact absurd hok (by simp)
  · split at hok
    · split at hok
      · cases hok; rfl
      · cases hok; rfl
    · cases hok; rfl

theorem updateRoomSettingsCore_players {mr : Option Nat} {room : GameRoom}
    {player : GamePlayer} {r' : GameRoom} {ems : List Emission} {bc : Bool}
    (hok : updateRoomSettingsCore mr room player = CoreResult.ok (some r') ems bc) :
    r'.players = room.players := by
  simp only [updateRoomSettingsCore] at hok
  split at hok
  · exact absurd hok (by simp)
  · split at hok
    · split at hok
      · cases hok; rfl
      · cases hok; rfl
    · cases hok; rfl

theorem toggleRoomLockCore_players {room : GameRoom} {player : GamePlayer}
    {r' : GameRoom} {ems : List Emission} {bc : Bool}
    (hok : toggleRoomLockCore room player = CoreResult.ok (some r') ems bc) :
    r'.players = room.players := by
  simp only [toggleRoomLockCore] at hok
  split at hok
  · exact absurd hok (by simp)
  · cases hok; rfl

theorem startPresentationCore_players {room : GameRoom} {player : GamePlayer}
    {r' : GameRoom} {ems : List Emission} {bc : Bool}
    (hok : startPresentationCore room player = CoreResult.ok (some r') ems bc) :
    r'.players = room.players := by
  simp only [startPresentationCore] at hok
  split at hok
  · exact absurd hok (by simp)
  · split at hok
    · exact absurd hok (by simp)
    · cases hok; rfl

theorem showResultCore_players {idx : Int} {room : GameRoom} {player : GamePlayer}
    {r' : GameRoom} {ems : List Emission} {bc : Bool}
    (hok : showResultCore idx room player = CoreResult.ok (some r') ems bc) :
    r'.players = room.players := by
  simp only [showResultCore] at hok
  split at hok
  · exact absurd hok (by simp)
  · split at hok
    · exact absurd hok (by simp)
    · cases hok; rfl

theorem endPresentationCore_players {room : GameRoom} {player : GamePlayer}
    {r' : GameRoom} {ems : List Emission} {bc : Bool}
    (hok : endPresentationCore room player = CoreResult.ok (some r') ems bc) :
    r'.players = room.players := by
  simp only [endPresentationCore] at hok
  split at hok
  · exact absurd hok (by simp)
  · split at hok
    · exact absurd hok (by simp)
    · cases hok; rfl

theorem resetGameCore_roomInv {room : GameRoom} {player : GamePlayer}
    {r' : GameRoom} {ems : List Emission} {bc : Bool} (hinv : RoomInv room)
    (hok : resetGameCore room player = CoreResult.ok (some r') ems bc) :
    RoomInv r' := by
  simp only [resetGameCore] at hok
  split at hok
  · exact absurd hok (by simp)
  · cases hok
    constructor
    · simp only [ne_eq, List.map_eq_nil_iff]
      exact hinv.1
    · show hostCount (room.players.map (fun p => { p with isReady := false })) = 1
      rw [hostCount, List.countP_map]
      have hcomp : ((fun p : GamePlayer => p.isHost) ∘
          fun p : GamePlayer => { p with isReady := false }) =
          (fun p : GamePlayer => p.isHost) := rfl
      rw [hcomp]
      exact hinv.2

/-- Any player-routed handler whose body preserves `RoomInv` preserves the
store invariant. -/
theorem storeInv_handlePlayerEvent {s : Store} {sid : String}
    {core : GameRoom → GamePlayer → CoreResult} (hs : StoreInv s)
    (hcore : ∀ room player r' ems bc,
      room.players.find? (fun p => p.id == sid) = some player →
      RoomInv room →
      core room player = CoreResult.ok (some r') ems bc → RoomInv r') :
    StoreInv (handlePlayerEvent s sid core).1 := by
  cases hf : findPlayerRoom sid s with
  | none => simp only [handlePlayerEvent, hf]; exact hs
  | some t =>
    obtain ⟨i, room, player⟩ := t
    obtain ⟨hget, hfind⟩ := findPlayerRoom_spec hf
    have hroom : room ∈ s := List.get?_mem hget
    cases hc : core room player with
    | err msg => simp only [handlePlayerEvent, hf, hc]; exact hs
    | ok room? ems bc =>
      cases room? with
      | none =>
        simp only [handlePlayerEvent, hf, hc, applyAt]
        exact storeInv_eraseIdx hs
      | some r' =>
        simp only [handlePlayerEvent, hf, hc, applyAt]
        exact storeInv_set hs (hcore room player r' ems bc hfind (hs room hroom) hc)

/-- Every event preserves the store invariant. -/
theorem storeInv_step (s : Store) (e : Event) (hs : StoreInv s) :
    StoreInv (applyEvent s e).1 := by
  cases e with
  | createRoom sid n pp rid rc =>
    simp only [applyEvent, applyCreateRoom]
    exact storeInv_setRoom ⟨by simp, by simp [hostCount]⟩ hs
  | joinRoom sid rc n pp =>
    cases hf : findRoomByCode rc s with
    | none => simp only [applyEvent, applyJoinRoom, hf]; exact hs
    | some t =>
      obtain ⟨i, room⟩ := t
      obtain ⟨hget, -⟩ := findRoomByCode_spec hf
      have hroom : room ∈ s := List.get?_mem hget
      by_cases hlock : room.locked
      · simp [applyEvent, applyJoinRoom, hf, hlock]; exact hs
      · by_cases hstate : room.gameState = GameState.lobby
        · simp only [applyEvent, applyJoinRoom, hf, Bool.not_eq_true] at hlock ⊢
          rw [if_neg (by simp [hlock]), if_neg (by simp [hstate])]
          apply storeInv_set hs
          constructor
          · simp
          · rw [hostCount, List.countP_append]
            have h1 := (hs room hroom).2
            rw [hostCount] at h1
            simp [h1]
        · simp only [applyEvent, applyJoinRoom, hf, Bool.not_eq_true] at hlock ⊢
          rw [if_neg (by simp [hlock]), if_pos (by simp [hstate])]
          exact hs
  | leaveRoom sid =>
    exact storeInv_handlePlayerEvent hs
      (fun room player r' ems bc hfind hinv hok => leaveCore_roomInv hfind hinv hok)
  | disconnect sid =>
    exact storeInv_handlePlayerEvent hs
      (fun room player r' ems bc hfind hinv hok => leaveCore_roomInv hfind hinv hok)
  | toggleReady sid =>
    exact storeInv_handlePlayerEvent hs
      (fun room player r' ems bc _ hinv hok => toggleReadyCore_roomInv hinv hok)
  | startGame sid =>
    exact storeInv_handlePlayerEvent hs
      (fun room player r' ems bc _ hinv hok =>
        roomInv_of_players_eq hinv (startGameCore_players hok))
  | submitSentence sid text =>
    exact storeInv_handlePlayerEvent hs
      (fun room player r' ems bc _ hinv hok =>
        roomInv_of_players_eq hinv (submitSentenceCore_players hok))
  | submitDrawing sid img =>
    exact storeInv_handlePlayerEvent hs
      (fun room player r' ems bc _ hinv hok =>
        roomInv_of_players_eq hinv (submitDrawingCore_players hok))
  | updateRoomSettings sid mr =>
    exact storeInv_handlePlayerEvent hs
      (fun room player r' ems bc _ hinv hok =>
        roomInv_of_players_eq hinv (updateRoomSettingsCore_players hok))
  | kickPlayer sid tid =>
    exact storeInv_handlePlayerEvent hs
      (fun room player r' ems bc hfind hinv hok => kickCore_roomInv hfind hinv hok)
  | toggleRoomLock sid =>
    exact storeInv_handlePlayerEvent hs
      (fun room player r' ems bc _ hinv hok =>
        roomInv_of_players_eq hinv (toggleRoomLockCore_players hok))
  | startPresentation sid =>
    exact storeInv_handlePlayerEvent hs
      (fun room player r' ems bc _ hinv hok =>
        roomInv_of_players_eq hinv (startPresentationCore_players hok))
  | showResult sid idx =>
    exact storeInv_handlePlayerEvent hs
      (fun room player r' ems bc _ hinv hok =>
        roomInv_of_players_eq hinv (showResultCore_players hok))
  | endPresentation sid =>
    exact storeInv_handlePlayerEvent hs
      (fun room player r' ems bc _ hinv hok =>
        roomInv_of_players_eq hinv (endPresentationCore_players hok))
  | resetGame sid =>
    exact storeInv_handlePlayerEvent hs
      (fun room player r' ems bc _ hinv hok => resetGameCore_roomInv hinv hok)
  | getActiveRooms sid => simp only [applyEvent]; exact hs

/-- The store invariant holds in every reachable state. -/
theorem storeInv_of_reachable {s : Store} (h : Reachable s) : StoreInv s := by
  induction h with
  | init => intro r hr; simp at hr
  | step e _ ih => exact storeInv_step _ e ih

/-! ### Concrete demonstration traces (all runs start from the empty store) -/

/-- Alice creates a room, Bob joins and toggles ready.  Two-player lobby,
host Alice not ready, Bob ready. -/
def lobbyTrace : List Event :=
  [Event.createRoom "a" "Alice" "pa" "r1" "AAAA",
   Event.joinRoom "b" "AAAA" "Bob" "pb",
   Event.toggleReady "b"]

/-- The room reached by `lobbyTrace`. -/
def lobbyRoom : GameRoom :=
  { id := "r1", code := "AAAA"
    players := [{ id := "a", nickname := "Alice", profilePic := "pa",
                  isHost := true, isReady := false },
                { id := "b", nickname := "Bob", profilePic := "pb",
                  isHost := false, isReady := true }]
    gameState := GameState.lobby, currentRound := 0, maxRounds := 3
    locked := false, sentences := [], drawings := []
    presentationMode := { active := false, currentIndex := 0 } }

/-- `lobbyTrace`, then the host starts the game: writing phase, round 1. -/
def writingTrace : List Event := lobbyTrace ++ [Event.startGame "a"]

/-- `writingTrace`, then both players submit sentences: drawing phase. -/
def drawingTrace : List Event :=
  writingTrace ++ [Event.submitSentence "a" "cat", Event.submitSentence "b" "dog"]

/-- Three players in a lobby, Alice the host. -/
def threeTrace : List Event :=
  [Event.createRoom "a" "Alice" "pa" "r1" "AAAA",
   Event.joinRoom "b" "AAAA" "Bob" "pb",
   Event.joinRoom "c" "AAAA" "Carl" "pc"]

/-- A finished game: `maxRounds` set to 1, one full round played, so the
room is in the results phase with presentation inactive. -/
def resultsTrace : List Event :=
  lobbyTrace ++
  [Event.updateRoomSettings "a" (some 1),
   Event.startGame "a",
   Event.submitSentence "a" "cat", Event.submitSentence "b" "dog",
   Event.submitDrawing "a" "img1", Event.submitDrawing "b" "img2"]

/-- Alice's player entry while she is host. -/
def alicePlayer : GamePlayer :=
  { id := "a", nickname := "Alice", profilePic := "pa", isHost := true, isReady := false }

/-- Bob's player entry once he has toggled ready. -/
def bobReady : GamePlayer :=
  { id := "b", nickname := "Bob", profilePic := "pb", isHost := false, isReady := true }

/-- The room reached by `drawingTrace`. -/
def drawRoom : GameRoom :=
  { id := "r1", code := "AAAA"
    players := [alicePlayer, bobReady]
    gameState := GameState.drawing, currentRound := 1, maxRounds := 3
    locked := false
    sentences := [{ playerId := "a", text := "cat", round := 1 },
                  { playerId := "b", text := "dog", round := 1 }]
    drawings := []
    presentationMode := { active := false, currentIndex := 0 } }

/-- The room reached by `resultsTrace`. -/
def resultsRoom : GameRoom :=
  { id := "r1", code := "AAAA"
    players := [alicePlayer, bobReady]
    gameState := GameState.results, currentRound := 1, maxRounds := 1
    locked := false
    sentences := [{ playerId := "a", text := "cat", round := 1 },
                  { playerId := "b", text := "dog", round := 1 }]
    drawings := [{ playerId := "a", imageData := "img1", round := 1 },
                 { playerId := "b", imageData := "img2", round := 1 }]
    presentationMode := { active := false, currentIndex := 0 } }

/-- The room reached by `threeTrace`. -/
def threeRoom : GameRoom :=
  { id := "r1", code := "AAAA"
    players := [alicePlayer,
                { id := "b", nickname := "Bob", profilePic := "pb",
                  isHost := false, isReady := false },
                { id := "c", nickname := "Carl", profilePic := "pc",
                  isHost := false, isReady := false }]
    gameState := GameState.lobby, currentRound := 0, maxRounds := 3
    locked := false, sentences := [], drawings := []
    presentationMode := { active := false, currentIndex := 0 } }

/-! ### Claim theorems -/

/-- C4: for every reachable state and every room in the store with player
count greater than 0, exactly one player entry has `isHost = true`; this
holds after every operation (create-room, join-room, leave-room,
kick-player, disconnect, and all others), since `Reachable` closes the
empty store under every event. -/
theorem C4_unique_host {s : Store} (h : Reachable s) :
    ∀ r ∈ s, 0 < r.players.length → hostCount r.players = 1 :=
  fun r hr _ => (storeInv_of_reachable h r hr).2

theorem C4_unique_host_witness :
    0 < lobbyRoom.players.length ∧ hostCount lobbyRoom.players = 1 :=
  ⟨by decide,
   C4_unique_host (reachable_runEvents lobbyTrace) lobbyRoom (by decide) (by decide)⟩

/-- C5: in every reachable state, every room present in the store has
player count greater than 0: the handlers delete a room the moment its
player list empties (leave-room and disconnect), and no event ever stores
an empty room, so presence in the store coincides with a positive player
count for all event sequences. -/
theorem C5_room_iff_players {s : Store} (h : Reachable s) :
    ∀ r ∈ s, 0 < r.players.length :=
  fun r hr => List.length_pos.mpr (storeInv_of_reachable h r hr).1

theorem C5_room_iff_players_witness : 0 < lobbyRoom.players.length :=
  C5_room_iff_players (reachable_runEvents lobbyTrace) lobbyRoom (by decide)

/-- C8: kick-player issued by a caller who is in a room but is not the
host returns the store unchanged and emits exactly one event, an error to
the caller only; in particular the target is still present and the room
record is identical to before. -/
theorem C8_kick_by_nonhost {s : Store} {sid tid : String} {i : Nat}
    {room : GameRoom} {player : GamePlayer}
    (hfind : findPlayerRoom sid s = some (i, room, player))
    (hhost : player.isHost = false) :
    applyEvent s (Event.kickPlayer sid tid) = (s, [Emission.error sid msgOnlyHostKick]) := by
  simp [applyEvent, handlePlayerEvent, hfind, kickPlayerCore, hhost]

theorem C8_kick_by_nonhost_witness :
    applyEvent (runEvents lobbyTrace) (Event.kickPlayer "b" "a") =
      (runEvents lobbyTrace, [Emission.error "b" msgOnlyHostKick]) :=
  @C8_kick_by_nonhost (runEvents lobbyTrace) "b" "a" 0 lobbyRoom bobReady
    (by decide) (by decide)

/-- C9: end-presentation by the host of a room whose presentation is
already inactive returns the store unchanged (the room record, including
`presentationMode`, is identical to before) and emits only an error to
the caller. -/
theorem C9_end_presentation_inactive {s : Store} {sid : String} {i : Nat}
    {room : GameRoom} {player : GamePlayer}
    (hfind : findPlayerRoom sid s = some (i, room, player))
    (hhost : player.isHost = true)
    (hactive : room.presentationMode.active = false) :
    applyEvent s (Event.endPresentation sid) =
      (s, [Emission.error sid msgPresentNotActive]) := by
  simp [applyEvent, handlePlayerEvent, hfind, endPresentationCore, hhost, hactive]

theorem C9_end_presentation_inactive_witness :
    applyEvent (runEvents resultsTrace) (Event.endPresentation "a") =
      (runEvents resultsTrace, [Emission.error "a" msgPresentNotActive]) :=
  @C9_end_presentation_inactive (runEvents resultsTrace) "a" 0 resultsRoom alicePlayer
    (by decide) (by decide) (by decide)

/-- C10: a single connection can be a member of two rooms at once: neither
create-room nor join-room checks prior membership.  Here connection "x"
creates room r1 and then joins room r2, ending up in both player lists;
`findPlayerRoom` then resolves "x" to the first room in insertion order
(r1), so subsequent events from "x" act only on r1. -/
theorem C10_dual_membership :
    ((runEvents [Event.createRoom "x" "X" "px" "r1" "AAAA",
        Event.createRoom "y" "Y" "py" "r2" "BBBB",
        Event.joinRoom "x" "BBBB" "X" "px"]).map
      (fun r => (r.id, r.players.map (fun p => p.id))) =
        [("r1", ["x"]), ("r2", ["y", "x"])]) ∧
    ((findPlayerRoom "x" (runEvents [Event.createRoom "x" "X" "px" "r1" "AAAA",
        Event.createRoom "y" "Y" "py" "r2" "BBBB",
        Event.joinRoom "x" "BBBB" "X" "px"])).map
      (fun t => (t.1, t.2.1.id)) = some (0, "r1")) := by
  decide

/-- C6: submit-drawing by a player of a room in the drawing phase appends
`Drawing(round = currentRound)`; when the count of drawings tagged with
the current round equals the player count, the phase becomes results if
`currentRound >= maxRounds` (the round does not increment), and otherwise
the round increments and the phase becomes writing; when the count
differs, phase and round are unchanged. -/
theorem C6_submit_drawing {s : Store} {sid img : String} {i : Nat}
    {room : GameRoom} {player : GamePlayer}
    (hfind : findPlayerRoom sid s = some (i, room, player))
    (hphase : room.gameState = GameState.drawing) :
    ∃ r', (applyEvent s (Event.submitDrawing sid img)).1 = s.set i r' ∧
      r'.drawings = room.drawings ++ [(⟨sid, img, room.currentRound⟩ : Drawing)] ∧
      (((room.drawings ++ [(⟨sid, img, room.currentRound⟩ : Drawing)]).filter
          (fun x => x.round == room.currentRound)).length = room.players.length →
        (room.maxRounds ≤ room.currentRound →
          r'.gameState = GameState.results ∧ r'.currentRound = room.currentRound) ∧
        (room.currentRound < room.maxRounds →
          r'.gameState = GameState.writing ∧ r'.currentRound = room.currentRound + 1)) ∧
      (((room.drawings ++ [(⟨sid, img, room.currentRound⟩ : Drawing)]).filter
          (fun x => x.round == room.currentRound)).length ≠ room.players.length →
        r'.gameState = GameState.drawing ∧ r'.currentRound = room.currentRound) := by
  have heq : ((room.drawings ++ [(⟨sid, img, room.currentRound⟩ : Drawing)]).filter
      (fun x => x.round == room.currentRound)).length =
      (room.drawings.filter (fun x => x.round == room.currentRound)).length + 1 := by
    simp [List.filter_append]
  by_cases hcnt : ((room.drawings ++ [(⟨sid, img, room.currentRound⟩ : Drawing)]).filter
      (fun x => x.round == room.currentRound)).length = room.players.length
  all_goals rw [heq] at hcnt
  · by_cases hmax : room.maxRounds ≤ room.currentRound
    · refine ⟨{ room with
          drawings := room.drawings ++ [(⟨sid, img, room.currentRound⟩ : Drawing)],
          gameState := GameState.results }, ?_, rfl, ?_, ?_⟩
      · simp [applyEvent, handlePlayerEvent, hfind, submitDrawingCore, hphase,
          hcnt, hmax, applyAt]
      · exact fun _ => ⟨fun _ => ⟨rfl, rfl⟩, fun hlt => absurd hmax (by omega)⟩
      · exact fun hne => absurd (heq.trans hcnt) hne
    · refine ⟨{ room with
          drawings := room.drawings ++ [(⟨sid, img, room.currentRound⟩ : Drawing)],
          currentRound := room.currentRound + 1,
          gameState := GameState.writing }, ?_, rfl, ?_, ?_⟩
      · simp [applyEvent, handlePlayerEvent, hfind, submitDrawingCore, hphase,
          hcnt, hmax, applyAt]
      · exact fun _ => ⟨fun hle => absurd hle hmax, fun _ => ⟨rfl, rfl⟩⟩
      · exact fun hne => absurd (heq.trans hcnt) hne
  · refine ⟨{ room with
        drawings := room.drawings ++ [(⟨sid, img, room.currentRound⟩ : Drawing)] }, ?_, rfl, ?_, ?_⟩
    · simp [applyEvent, handlePlayerEvent, hfind, submitDrawingCore, hphase,
        hcnt, applyAt]
    · exact fun hc => absurd (heq.symm.trans hc) hcnt
    · exact fun _ => ⟨hphase, rfl⟩

theorem C6_submit_drawing_witness :
    ∃ r', (applyEvent (runEvents drawingTrace) (Event.submitDrawing "a" "blob")).1 =
        (runEvents drawingTrace).set 0 r' ∧
      r'.drawings = drawRoom.drawings ++ [(⟨"a", "blob", drawRoom.currentRound⟩ : Drawing)] ∧
      (((drawRoom.drawings ++ [(⟨"a", "blob", drawRoom.currentRound⟩ : Drawing)]).filter
          (fun x => x.round == drawRoom.currentRound)).length = drawRoom.players.length →
        (drawRoom.maxRounds ≤ drawRoom.currentRound →
          r'.gameState = GameState.results ∧ r'.currentRound = drawRoom.currentRound) ∧
        (drawRoom.currentRound < drawRoom.maxRounds →
          r'.gameState = GameState.writing ∧ r'.currentRound = drawRoom.currentRound + 1)) ∧
      (((drawRoom.drawings ++ [(⟨"a", "blob", drawRoom.currentRound⟩ : Drawing)]).filter
          (fun x => x.round == drawRoom.currentRound)).length ≠ drawRoom.players.length →
        r'.gameState = GameState.drawing ∧ r'.currentRound = drawRoom.currentRound) :=
  @C6_submit_drawing (runEvents drawingTrace) "a" "blob" 0 drawRoom alicePlayer
    (by decide) (by decide)

/-- C7: when the host of a room with at least 2 players leaves or
disconnects, the host role passes to the first remaining player in join
(insertion) order, and a player-left notification carrying the updated
room is emitted to the room. -/
theorem C7_host_leave_reassign {s : Store} {sid : String} {i : Nat}
    {room : GameRoom} {player : GamePlayer}
    (hfind : findPlayerRoom sid s = some (i, room, player))
    (hhost : player.isHost = true)
    (hlen : 2 ≤ room.players.length) :
    ∃ h t, eraseFirstBy (fun p => p.id == sid) room.players = h :: t ∧
      (applyEvent s (Event.leaveRoom sid)).1 =
        s.set i { room with players := { h with isHost := true } :: t } ∧
      (applyEvent s (Event.disconnect sid)).1 =
        s.set i { room with players := { h with isHost := true } :: t } ∧
      Emission.playerLeft room.id sid { room with players := { h with isHost := true } :: t }
        ∈ (applyEvent s (Event.leaveRoom sid)).2 ∧
      Emission.playerLeft room.id sid { room with players := { h with isHost := true } :: t }
        ∈ (applyEvent s (Event.disconnect sid)).2 := by
  obtain ⟨hget, hfindp⟩ := findPlayerRoom_spec hfind
  obtain ⟨l₁, l₂, hsplit, -, -, herase⟩ := find?_decomp hfindp
  have hlen2 : room.players.length = l₁.length + l₂.length + 1 := by
    rw [hsplit]; simp [List.length_append]; omega
  cases hht : l₁ ++ l₂ with
  | nil =>
    exfalso
    obtain ⟨rfl, rfl⟩ := List.append_eq_nil.mp hht
    simp at hlen2
    omega
  | cons h t =>
    refine ⟨h, t, by rw [herase, hht], ?_, ?_, ?_, ?_⟩ <;>
      simp [applyEvent, handlePlayerEvent, hfind, leaveCore, herase, hht, hhost, applyAt]

theorem C7_host_leave_reassign_witness :
    ∃ h t, eraseFirstBy (fun p => p.id == "a") threeRoom.players = h :: t ∧
      (applyEvent (runEvents threeTrace) (Event.leaveRoom "a")).1 =
        (runEvents threeTrace).set 0 { threeRoom with players := { h with isHost := true } :: t } ∧
      (applyEvent (runEvents threeTrace) (Event.disconnect "a")).1 =
        (runEvents threeTrace).set 0 { threeRoom with players := { h with isHost := true } :: t } ∧
      Emission.playerLeft threeRoom.id "a"
          { threeRoom with players := { h with isHost := true } :: t }
        ∈ (applyEvent (runEvents threeTrace) (Event.leaveRoom "a")).2 ∧
      Emission.playerLeft threeRoom.id "a"
          { threeRoom with players := { h with isHost := true } :: t }
        ∈ (applyEvent (runEvents threeTrace) (Event.disconnect "a")).2 :=
  @C7_host_leave_reassign (runEvents threeTrace) "a" 0 threeRoom alicePlayer
    (by decide) (by decide) (by decide)

/-- The room reached by `writingTrace`. -/
def writingRoom : GameRoom :=
  { id := "r1", code := "AAAA"
    players := [alicePlayer, bobReady]
    gameState := GameState.writing, currentRound := 1, maxRounds := 3
    locked := false, sentences := [], drawings := []
    presentationMode := { active := false, currentIndex := 0 } }

/-- C2 counterexample: in the two-player lobby where Bob (non-host) is
ready and host Alice is not (first conjunct shows Alice's entry with
`isHost = true, isReady = false`), start-game by Alice SUCCEEDS, moving
the room to writing, round 1 (second conjunct) — it does not fail as the
claim states, because the ready check exempts the caller. -/
theorem C2_counterexample :
    ((runEvents lobbyTrace).map
        (fun r => r.players.map (fun p => (p.id, p.isHost, p.isReady))) =
      [[("a", true, false), ("b", false, true)]]) ∧
    ((applyEvent (runEvents lobbyTrace) (Event.startGame "a")).1.map
        (fun r => (r.gameState, r.currentRound)) = [(GameState.writing, 1)]) := by
  decide

/-- C2 amended: start-game by the host succeeds as soon as every player
other than the caller is ready (the host's own ready flag is never
required, since the check exempts the caller) and the room has at least 2
players: the phase becomes writing and currentRound 1.  In the two-player
scenario the first start-game by the host already succeeds. -/
theorem C2_start_game_host_exempt {s : Store} {sid : String} {i : Nat}
    {room : GameRoom} {player : GamePlayer}
    (hfind : findPlayerRoom sid s = some (i, room, player))
    (hhost : player.isHost = true)
    (hready : ∀ p ∈ room.players, p.isReady = true ∨ p.id = player.id)
    (hlen : 2 ≤ room.players.length) :
    (applyEvent s (Event.startGame sid)).1 =
      s.set i { room with gameState := GameState.writing, currentRound := 1 } := by
  have hall : room.players.all (fun p => p.isReady || p.id == player.id) = true := by
    rw [List.all_eq_true]
    intro p hp
    rcases hready p hp with h | h
    · simp [h]
    · simp [h]
  have hlt : ¬room.players.length < 2 := by omega
  simp [applyEvent, handlePlayerEvent, hfind, startGameCore, hhost, hall, hlt, applyAt]

theorem C2_start_game_host_exempt_witness :
    (applyEvent (runEvents lobbyTrace) (Event.startGame "a")).1 =
      (runEvents lobbyTrace).set 0
        { lobbyRoom with gameState := GameState.writing, currentRound := 1 } :=
  @C2_start_game_host_exempt (runEvents lobbyTrace) "a" 0 lobbyRoom alicePlayer
    (by decide) (by decide) (by decide) (by decide)

/-- C1 counterexample: from the two-player writing phase, player "a"
submits two sentences in the same round; the room then holds two Sentence
entries with `playerId = "a"` and `round = 1`, refuting the at-most-one
invariant (phase gating does not prevent resubmission within a phase). -/
theorem C1_counterexample :
    (runEvents (writingTrace ++
        [Event.submitSentence "a" "one", Event.submitSentence "a" "two"])).map
      (fun r => (r.sentences.filter
        (fun x => x.playerId == "a" && x.round == 1)).length) = [2] := by
  decide

/-- C1 amended: the handlers perform no per-player deduplication: every
accepted submit-sentence (in the writing phase) and submit-drawing (in
the drawing phase) appends one entry tagged with the current round, so
the number of entries a player has for a round equals the number of that
player's accepted submissions — it exceeds one as soon as the player
submits twice in the same round. -/
theorem C1_no_dedup {s : Store} {sid : String} {i : Nat} {room : GameRoom}
    {player : GamePlayer} (hfind : findPlayerRoom sid s = some (i, room, player)) :
    (∀ text, room.gameState = GameState.writing → ∃ r',
      (applyEvent s (Event.submitSentence sid text)).1 = s.set i r' ∧
      (r'.sentences.filter
          (fun x => x.playerId == sid && x.round == room.currentRound)).length =
        (room.sentences.filter
          (fun x => x.playerId == sid && x.round == room.currentRound)).length + 1) ∧
    (∀ img, room.gameState = GameState.drawing → ∃ r',
      (applyEvent s (Event.submitDrawing sid img)).1 = s.set i r' ∧
      (r'.drawings.filter
          (fun x => x.playerId == sid && x.round == room.currentRound)).length =
        (room.drawings.filter
          (fun x => x.playerId == sid && x.round == room.currentRound)).length + 1) := by
  constructor
  · intro text hphase
    by_cases hcnt : ((room.sentences ++ [(⟨sid, text, room.currentRound⟩ : Sentence)]).filter
        (fun x => x.round == room.currentRound)).length = room.players.length
    all_goals have hcnt' := hcnt
    all_goals rw [show ((room.sentences ++ [(⟨sid, text, room.currentRound⟩ : Sentence)]).filter
        (fun x => x.round == room.currentRound)).length =
        (room.sentences.filter (fun x => x.round == room.currentRound)).length + 1
      from by simp [List.filter_append]] at hcnt'
    · refine ⟨{ room with
          sentences := room.sentences ++ [(⟨sid, text, room.currentRound⟩ : Sentence)],
          gameState := GameState.drawing }, ?_, ?_⟩
      · simp [applyEvent, handlePlayerEvent, hfind, submitSentenceCore, hphase,
          hcnt', applyAt]
      · simp [List.filter_append]
    · refine ⟨{ room with
          sentences := room.sentences ++ [(⟨sid, text, room.currentRound⟩ : Sentence)] }, ?_, ?_⟩
      · simp [applyEvent, handlePlayerEvent, hfind, submitSentenceCore, hphase,
          hcnt', applyAt]
      · simp [List.filter_append]
  · intro img hphase
    by_cases hcnt : ((room.drawings ++ [(⟨sid, img, room.currentRound⟩ : Drawing)]).filter
        (fun x => x.round == room.currentRound)).length = room.players.length
    all_goals have hcnt' := hcnt
    all_goals rw [show ((room.drawings ++ [(⟨sid, img, room.currentRound⟩ : Drawing)]).filter
        (fun x => x.round == room.currentRound)).length =
        (room.drawings.filter (fun x => x.round == room.currentRound)).length + 1
      from by simp [List.filter_append]] at hcnt'
    · by_cases hmax : room.maxRounds ≤ room.currentRound
      · refine ⟨{ room with
            drawings := room.drawings ++ [(⟨sid, img, room.currentRound⟩ : Drawing)],
            gameState := GameState.results }, ?_, ?_⟩
        · simp [applyEvent, handlePlayerEvent, hfind, submitDrawingCore, hphase,
            hcnt', hmax, applyAt]
        · simp [List.filter_append]
      · refine ⟨{ room with
            drawings := room.drawings ++ [(⟨sid, img, room.currentRound⟩ : Drawing)],
            currentRound := room.currentRound + 1,
            gameState := GameState.writing }, ?_, ?_⟩
        · simp [applyEvent, handlePlayerEvent, hfind, submitDrawingCore, hphase,
            hcnt', hmax, applyAt]
        · simp [List.filter_append]
    · refine ⟨{ room with
          drawings := room.drawings ++ [(⟨sid, img, room.currentRound⟩ : Drawing)] }, ?_, ?_⟩
      · simp [applyEvent, handlePlayerEvent, hfind, submitDrawingCore, hphase,
          hcnt', applyAt]
      · simp [List.filter_append]

theorem C1_no_dedup_witness :
    (∃ r', (applyEvent (runEvents writingTrace) (Event.submitSentence "a" "one")).1 =
        (runEvents writingTrace).set 0 r' ∧
      (r'.sentences.filter
          (fun x => x.playerId == "a" && x.round == writingRoom.currentRound)).length =
        (writingRoom.sentences.filter
          (fun x => x.playerId == "a" && x.round == writingRoom.currentRound)).length + 1) ∧
    (∃ r', (applyEvent (runEvents drawingTrace) (Event.submitDrawing "a" "blob")).1 =
        (runEvents drawingTrace).set 0 r' ∧
      (r'.drawings.filter
          (fun x => x.playerId == "a" && x.round == drawRoom.currentRound)).length =
        (drawRoom.drawings.filter
          (fun x => x.playerId == "a" && x.round == drawRoom.currentRound)).length + 1) :=
  ⟨(@C1_no_dedup (runEvents writingTrace) "a" 0 writingRoom alicePlayer (by decide)).1
      "one" (by decide),
   (@C1_no_dedup (runEvents drawingTrace) "a" 0 drawRoom alicePlayer (by decide)).2
      "blob" (by decide)⟩

/-! ### Single-step phase-transition characterization -/

theorem leaveCore_phase {sid : String} {room : GameRoom} {player : GamePlayer}
    {r' : GameRoom} {ems : List Emission} {bc : Bool}
    (hok : leaveCore sid room player = CoreResult.ok (some r') ems bc) :
    r'.gameState = room.gameState := by
  simp only [leaveCore] at hok
  split at hok
  · exact absurd hok (by simp)
  · cases hok; rfl

theorem toggleReadyCore_phase {sid : String} {room : GameRoom} {player : GamePlayer}
    {r' : GameRoom} {ems : List Emission} {bc : Bool}
    (hok : toggleReadyCore sid room player = CoreResult.ok (some r') ems bc) :
    r'.gameState = room.gameState := by
  simp only [toggleReadyCore] at hok
  cases hok; rfl

theorem startGameCore_phase {room : GameRoom} {player : GamePlayer}
    {r' : GameRoom} {ems : List Emission} {bc : Bool}
    (hok : startGameCore room player = CoreResult.ok (some r') ems bc) :
    r'.gameState = GameState.writing ∧ r'.currentRound = 1 := by
  simp only [startGameCore] at hok
  split at hok
  · exact absurd hok (by simp)
  · split at hok
    · exact absurd hok (by simp)
    · split at hok
      · exact absurd hok (by simp)
      · cases hok; exact ⟨rfl, rfl⟩

theorem submitSentenceCore_phase {sid text : String} {room : GameRoom}
    {player : GamePlayer} {r' : GameRoom} {ems : List Emission} {bc : Bool}
    (hok : submitSentenceCore sid text room player = CoreResult.ok (some r') ems bc) :
    (r'.gameState = room.gameState ∧ r'.currentRound = room.currentRound) ∨
    (room.gameState = GameState.writing ∧ r'.gameState = GameState.drawing ∧
      r'.currentRound = room.currentRound) := by
  simp only [submitSentenceCore] at hok
  split at hok
  · exact absurd hok (by simp)
  · next hphase =>
    split at hok
    · cases hok
      exact Or.inr ⟨not_not.mp hphase, rfl, rfl⟩
    · cases hok
      exact Or.inl ⟨rfl, rfl⟩

theorem submitDrawingCore_phase {sid img : String} {room : GameRoom}
    {player : GamePlayer} {r' : GameRoom} {ems : List Emission} {bc : Bool}
    (hok : submitDrawingCore sid img room player = CoreResult.ok (some r') ems bc) :
    (r'.gameState = room.gameState ∧ r'.currentRound = room.currentRound) ∨
    (room.gameState = GameState.drawing ∧
      ((r'.gameState = GameState.writing ∧ r'.currentRound = room.currentRound + 1 ∧
          room.currentRound < room.maxRounds) ∨
        (r'.gameState = GameState.results ∧ r'.currentRound = room.currentRound ∧
          room.maxRounds ≤ room.currentRound))) := by
  simp only [submitDrawingCore] at hok
  split at hok
  · exact absurd hok (by simp)
  · next hphase =>
    split at hok
    · split at hok
      · next hmax =>
        cases hok
        exact Or.inr ⟨not_not.mp hphase, Or.inr ⟨rfl, rfl, hmax⟩⟩
      · next hmax =>
        cases hok
        exact Or.inr ⟨not_not.mp hphase, Or.inl ⟨rfl, rfl, by omega⟩⟩
    · cases hok
      exact Or.inl ⟨rfl, rfl⟩

theorem updateRoomSettingsCore_phase {mr : Option Nat} {room : GameRoom}
    {player : GamePlayer} {r' : GameRoom} {ems : List Emission} {bc : Bool}
    (hok : updateRoomSettingsCore mr room player = CoreResult.ok (some r') ems bc) :
    r'.gameState = room.gameState := by
  simp only [updateRoomSettingsCore] at hok
  split at hok
  · exact absurd hok (by simp)
  · split at hok
    · split at hok
      · cases hok; rfl
      · cases hok; rfl
    · cases hok; rfl

theorem kickPlayerCore_phase {sid tid : String} {room : GameRoom}
    {player : GamePlayer} {r' : GameRoom} {ems : List Emission} {bc : Bool}
    (hok : kickPlayerCore sid tid room player = CoreResult.ok (some r') ems bc) :
    r'.gameState = room.gameState := by
  simp only [kickPlayerCore] at hok
  split at hok
  · exact absurd hok (by simp)
  · split at hok
    · exact absurd hok (by simp)
    · split at hok
      · exact absurd hok (by simp)
      · cases hok; rfl

theorem toggleRoomLockCore_phase {room : GameRoom} {player : GamePlayer}
    {r' : GameRoom} {ems : List Emission} {bc : Bool}
    (hok : toggleRoomLockCore room player = CoreResult.ok (some r') ems bc) :
    r'.gameState = room.gameState := by
  simp only [toggleRoomLockCore] at hok
  split at hok
  · exact absurd hok (by simp)
  · cases hok; rfl

theorem startPresentationCore_phase {room : GameRoom} {player : GamePlayer}
    {r' : GameRoom} {ems : List Emission} {bc : Bool}
    (hok : startPresentationCore room player = CoreResult.ok (some r') ems bc) :
    r'.gameState = room.gameState := by
  simp only [startPresentationCore] at hok
  split at hok
  · exact absurd hok (by simp)
  · split at hok
    · exact absurd hok (by simp)
    · cases hok; rfl

theorem showResultCore_phase {idx : Int} {room : GameRoom} {player : GamePlayer}
    {r' : GameRoom} {ems : List Emission} {bc : Bool}
    (hok : showResultCore idx room player = CoreResult.ok (some r') ems bc) :
    r'.gameState = room.gameState := by
  simp only [showResultCore] at hok
  split at hok
  · exact absurd hok (by simp)
  · split at hok
    · exact absurd hok (by simp)
    · cases hok; rfl

theorem endPresentationCore_phase {room : GameRoom} {player : GamePlayer}
    {r' : GameRoom} {ems : List Emission} {bc : Bool}
    (hok : endPresentationCore room player = CoreResult.ok (some r') ems bc) :
    r'.gameState = room.gameState := by
  simp only [endPresentationCore] at hok
  split at hok
  · exact absurd hok (by simp)
  · split at hok
    · exact absurd hok (by simp)
    · cases hok; rfl

theorem resetGameCore_phase {room : GameRoom} {player : GamePlayer}
    {r' : GameRoom} {ems : List Emission} {bc : Bool}
    (hok : resetGameCore room player = CoreResult.ok (some r') ems bc) :
    r'.gameState = GameState.lobby ∧ r'.currentRound = 0 := by
  simp only [resetGameCore] at hok
  split at hok
  · exact absurd hok (by simp)
  · cases hok; exact ⟨rfl, rfl⟩

/-- The phase transitions a single event can make on the room it touches
(old room `r`, new room `r'`).  Written from the handlers: start-game is
not phase-gated, so it can set writing/round-1 from any phase; the
submit events move writing→drawing and drawing→writing/results on full
submission; reset-game returns to the lobby; everything else leaves the
phase alone. -/
def PhaseStep (e : Event) (r r' : GameRoom) : Prop :=
  r'.gameState = r.gameState
  ∨ ((∃ sid, e = Event.startGame sid) ∧
      r'.gameState = GameState.writing ∧ r'.currentRound = 1)
  ∨ ((∃ sid text, e = Event.submitSentence sid text) ∧
      r.gameState = GameState.writing ∧ r'.gameState = GameState.drawing ∧
      r'.currentRound = r.currentRound)
  ∨ ((∃ sid img, e = Event.submitDrawing sid img) ∧
      r.gameState = GameState.drawing ∧
      ((r'.gameState = GameState.writing ∧ r'.currentRound = r.currentRound + 1 ∧
          r.currentRound < r.maxRounds)
        ∨ (r'.gameState = GameState.results ∧ r'.currentRound = r.currentRound ∧
          r.maxRounds ≤ r.currentRound)))
  ∨ ((∃ sid, e = Event.resetGame sid) ∧
      r'.gameState = GameState.lobby ∧ r'.currentRound = 0)

/-- How one event changes the store: no change, one room updated in place
subject to `PhaseStep`, one room deleted, or a fresh lobby room stored by
create-room. -/
def StepShape (s : Store) (e : Event) (s' : Store) : Prop :=
  s' = s
  ∨ (∃ i r r', s.get? i = some r ∧ s' = s.set i r' ∧ PhaseStep e r r')
  ∨ (∃ i, s' = s.eraseIdx i)
  ∨ ((∃ sid n pp rid rc, e = Event.createRoom sid n pp rid rc) ∧
      ∃ room, room.gameState = GameState.lobby ∧ s' = setRoom s room)

theorem stepShape_handle {s : Store} {sid : String} {e : Event}
    {core : GameRoom → GamePlayer → CoreResult}
    (hcore : ∀ room player r' ems bc,
      core room player = CoreResult.ok (some r') ems bc → PhaseStep e room r') :
    StepShape s e (handlePlayerEvent s sid core).1 := by
  cases hf : findPlayerRoom sid s with
  | none => left; simp [handlePlayerEvent, hf]
  | some t =>
    obtain ⟨i, room, player⟩ := t
    obtain ⟨hget, -⟩ := findPlayerRoom_spec hf
    cases hc : core room player with
    | err m => left; simp [handlePlayerEvent, hf, hc]
    | ok room? ems bc =>
      cases room? with
      | none =>
        right; right; left
        exact ⟨i, by simp [handlePlayerEvent, hf, hc, applyAt]⟩
      | some r' =>
        right; left
        exact ⟨i, room, r', hget, by simp [handlePlayerEvent, hf, hc, applyAt],
          hcore room player r' ems bc hc⟩

/-- C3 counterexample: the claim that writing never directly follows
drawing except via the round-increment path is false.  From a reachable
two-player room in the drawing phase with NO drawings submitted at all
(first two conjuncts), a start-game by the still-host (possible because
start-game is not phase-gated and the ready flags survive from the
lobby) moves the room straight back to writing, round 1 (third
conjunct). -/
theorem C3_counterexample :
    ((runEvents drawingTrace).map (fun r => r.gameState) = [GameState.drawing]) ∧
    ((runEvents drawingTrace).map (fun r => r.drawings) = [[]]) ∧
    ((applyEvent (runEvents drawingTrace) (Event.startGame "a")).1.map
        (fun r => (r.gameState, r.currentRound)) = [(GameState.writing, 1)]) := by
  decide

/-- C3 amended: in any single step, the store either keeps every phase
unchanged, deletes a room, stores a fresh lobby room (create-room), or
updates one room whose phase moves only along: submit-sentence
writing→drawing on full submission; submit-drawing drawing→writing with
round+1 (when round < maxRounds) or drawing→results (when round ≥
maxRounds, the only way to reach results); reset-game →lobby (the only
way back to the lobby besides room creation); and start-game →writing
with round 1 from ANY phase — so writing can directly follow drawing via
a mid-game start-game, not only via the round-increment path. -/
theorem C3_phase_transitions (s : Store) (e : Event) :
    StepShape s e (applyEvent s e).1 := by
  cases e with
  | createRoom sid n pp rid rc =>
    right; right; right
    refine ⟨⟨sid, n, pp, rid, rc, rfl⟩,
      ⟨{ id := rid, code := rc
         players := [{ id := sid, nickname := n, profilePic := pp,
                       isHost := true, isReady := false }]
         gameState := GameState.lobby, currentRound := 0, maxRounds := 3
         locked := false, sentences := [], drawings := []
         presentationMode := { active := false, currentIndex := 0 } }, rfl, rfl⟩⟩
  | joinRoom sid rc n pp =>
    cases hf : findRoomByCode rc s with
    | none => left; simp [applyEvent, applyJoinRoom, hf]
    | some t =>
      obtain ⟨i, room⟩ := t
      obtain ⟨hget, -⟩ := findRoomByCode_spec hf
      by_cases hlock : room.locked
      · left; simp [applyEvent, applyJoinRoom, hf, hlock]
      · by_cases hstate : room.gameState = GameState.lobby
        · right; left
          refine ⟨i, room, { room with players := room.players ++
              [{ id := sid, nickname := n, profilePic := pp,
                 isHost := false, isReady := false }] },
            hget, ?_, Or.inl rfl⟩
          simp only [applyEvent, applyJoinRoom, hf, Bool.not_eq_true] at hlock ⊢
          rw [if_neg (by simp [hlock]), if_neg (by simp [hstate])]
        · left
          simp only [applyEvent, applyJoinRoom, hf, Bool.not_eq_true] at hlock ⊢
          rw [if_neg (by simp [hlock]), if_pos (by simp [hstate])]
  | leaveRoom sid =>
    exact stepShape_handle (fun room player r' ems bc hok =>
      Or.inl (leaveCore_phase hok))
  | disconnect sid =>
    exact stepShape_handle (fun room player r' ems bc hok =>
      Or.inl (leaveCore_phase hok))
  | toggleReady sid =>
    exact stepShape_handle (fun room player r' ems bc hok =>
      Or.inl (toggleReadyCore_phase hok))
  | startGame sid =>
    exact stepShape_handle (fun room player r' ems bc hok =>
      Or.inr (Or.inl ⟨⟨sid, rfl⟩, startGameCore_phase hok⟩))
  | submitSentence sid text =>
    refine stepShape_handle (fun room player r' ems bc hok => ?_)
    rcases submitSentenceCore_phase hok with ⟨hg, -⟩ | ⟨hw, hd, hr⟩
    · exact Or.inl hg
    · exact Or.inr (Or.inr (Or.inl ⟨⟨sid, text, rfl⟩, hw, hd, hr⟩))
  | submitDrawing sid img =>
    refine stepShape_handle (fun room player r' ems bc hok => ?_)
    rcases submitDrawingCore_phase hok with ⟨hg, -⟩ | ⟨hd, hcase⟩
    · exact Or.inl hg
    · exact Or.inr (Or.inr (Or.inr (Or.inl ⟨⟨sid, img, rfl⟩, hd, hcase⟩)))
  | updateRoomSettings sid mr =>
    exact stepShape_handle (fun room player r' ems bc hok =>
      Or.inl (updateRoomSettingsCore_phase hok))
  | kickPlayer sid tid =>
    exact stepShape_handle (fun room player r' ems bc hok =>
      Or.inl (kickPlayerCore_phase hok))
  | toggleRoomLock sid =>
    exact stepShape_handle (fun room player r' ems bc hok =>
      Or.inl (toggleRoomLockCore_phase hok))
  | startPresentation sid =>
    exact stepShape_handle (fun room player r' ems bc hok =>
      Or.inl (startPresentationCore_phase hok))
  | showResult sid idx =>
    exact stepShape_handle (fun room player r' ems bc hok =>
      Or.inl (showResultCore_phase hok))
  | endPresentation sid =>
    exact stepShape_handle (fun room player r' ems bc hok =>
      Or.inl (endPresentationCore_phase hok))
  | resetGame sid =>
    exact stepShape_handle (fun room player r' ems bc hok =>
      Or.inr (Or.inr (Or.inr (Or.inr ⟨⟨sid, rfl⟩, resetGameCore_phase hok⟩))))
  | getActiveRooms sid => left; rfl

end Mnsphone
